import Mathlib

/-!
# Verification of the mdpdf Markdown-to-PDF conversion pipeline

A shallow embedding of the two source variants of the mdpdf module
(`src/index.js` and `src/unnamed/part_000`) together with models of the
external Node collaborators they call (the `path.posix` functions, the legacy
`url.parse` protocol extraction, and the `file-url` package).  Effectful steps
(file reads/writes, the headless-engine lifecycle) are modelled by an explicit
environment `Env` supplying the outcome of every step, and each run computes
the resulting event trace and resource state.
-/

set_option maxRecDepth 4096

/-- JavaScript truthiness of an optional string value: `undefined`/`null` and
the empty string are falsy, every other string is truthy. -/
def jsTruthy : Option String → Bool
  | none => false
  | some s => s != ""

/-- JavaScript `x || null` on an optional string: a falsy value becomes null. -/
def jsOrNull (x : Option String) : Option String :=
  if jsTruthy x then x else none

/-! ## Character-list string utilities (kernel-friendly) -/

/-- `prefixCk n h` is true when the char list `n` is a prefix of `h`. -/
def prefixCk : List Char → List Char → Bool
  | [], _ => true
  | _ :: _, [] => false
  | a :: as, b :: bs => a == b && prefixCk as bs

/-- `hasSub n h` is true when `n` occurs as a contiguous sublist of `h`. -/
def hasSub (n : List Char) : List Char → Bool
  | [] => n.isEmpty
  | h@(_ :: rest) => prefixCk n h || hasSub n rest

/-- String-level substring test: `strHasSub needle hay`. -/
def strHasSub (needle hay : String) : Bool :=
  hasSub needle.data hay.data

/-- Split a char list on a separator character (like `String.split`). -/
def splitChar (sep : Char) : List Char → List (List Char)
  | [] => [[]]
  | c :: cs =>
    let r := splitChar sep cs
    if c == sep then [] :: r
    else
      match r with
      | [] => [[c]]
      | g :: gs => (c :: g) :: gs

/-- Split a string on `'/'` into path segments. -/
def splitSlashes (s : String) : List String :=
  (splitChar '/' s.data).map String.mk

/-- Join strings with a separator (used to reassemble path segments and to
model template substitution). -/
def joinWith (sep : String) : List String → String
  | [] => ""
  | [a] => a
  | a :: rest => a ++ sep ++ joinWith sep rest

/-- Fuel-driven worker for `replaceAll` (structural recursion on the fuel so
that concrete instances reduce inside the kernel; the fuel is always at least
the length of the remaining text, so the exhaustion branch is unreachable). -/
def replaceAllF (sep repl : List Char) : Nat → List Char → List Char
  | _, [] => []
  | 0, cs => cs
  | fuel + 1, c :: rest =>
    if !sep.isEmpty && prefixCk sep (c :: rest) then
      repl ++ replaceAllF sep repl fuel ((c :: rest).drop sep.length)
    else
      c :: replaceAllF sep repl fuel rest

/-- Replace every (leftmost, non-overlapping) occurrence of `sep` by `repl`. -/
def replaceAll (sep repl cs : List Char) : List Char :=
  replaceAllF sep repl cs.length cs

/-! ## Node `path.posix` model -/

/-- Segment normalisation used by Node's `path.posix` `normalizeString`:
drops empty and `"."` segments and resolves `".."` against the stack
(`allowAboveRoot` keeps leading `".."` segments for relative paths). -/
def normSegs (allowAboveRoot : Bool) (segs : List String) : List String :=
  segs.foldl
    (fun acc s =>
      if s = "" || s = "." then acc
      else if s = ".." then
        if acc ≠ [] ∧ acc.getLast? ≠ some ".." then acc.dropLast
        else if allowAboveRoot then acc ++ [".."] else acc
      else acc ++ [s])
    []

/-- Whether a posix path string is absolute. -/
def isAbsPath (s : String) : Bool :=
  s.data.head? == some '/'

/-- Node `path.posix.normalize`. -/
def posixNormalize (p : String) : String :=
  if p = "" then "."
  else
    let abs := isAbsPath p
    let trailing := p.data.getLast? == some '/'
    let body := joinWith "/" (normSegs (!abs) (splitSlashes p))
    if body = "" then
      if abs then "/" else if trailing then "./" else "."
    else
      let body := if trailing then body ++ "/" else body
      if abs then "/" ++ body else body

/-- Node `path.posix.join` restricted to two arguments. -/
def posixJoin (a b : String) : String :=
  if a = "" && b = "" then "."
  else if a = "" then posixNormalize b
  else if b = "" then posixNormalize a
  else posixNormalize (a ++ "/" ++ b)

/-- The right-to-left accumulation loop of Node `path.posix.resolve`:
paths are prepended (skipping empty ones) until an absolute one is found. -/
def resolveAccum : List String → String → String
  | [], acc => acc
  | p :: rest, acc =>
    if p = "" then resolveAccum rest acc
    else
      let acc2 := p ++ "/" ++ acc
      if isAbsPath p then acc2 else resolveAccum rest acc2

/-- Node `path.posix.resolve` over a list of arguments, with the process
working directory `cwd` (assumed absolute) as the final fallback. -/
def posixResolveList (cwd : String) (paths : List String) : String :=
  let acc := resolveAccum (paths.reverse ++ [cwd]) ""
  let abs := isAbsPath acc
  let body := joinWith "/" (normSegs (!abs) (splitSlashes acc))
  if abs then "/" ++ body
  else if body = "" then "." else body

/-- `path.resolve(p)` with one argument. -/
def posixResolve1 (cwd p : String) : String :=
  posixResolveList cwd [p]

/-- `path.resolve(base, p)` with two arguments. -/
def posixResolve2 (cwd base p : String) : String :=
  posixResolveList cwd [base, p]

/-- Node `path.posix.dirname`. -/
def posixDirname (p : String) : String :=
  let cs := p.data
  if cs.isEmpty then "."
  else
    let hasRoot := cs.head? == some '/'
    let r2 := (cs.reverse.dropWhile (fun c => c == '/')).dropWhile (fun c => c != '/')
    let e := r2.length - 1
    if r2.length ≤ 1 then (if hasRoot then "/" else ".")
    else if hasRoot && e == 1 then "//"
    else String.mk (cs.take e)

/-! ## Legacy `url.parse` protocol extraction and `hasAcceptableProtocol` -/

/-- JS `String.prototype.trim` (common whitespace). -/
def jsTrim (s : String) : String :=
  let ws : Char → Bool := fun c => c == ' ' || c == '\t' || c == '\n' || c == '\r'
  String.mk (((s.data.dropWhile ws).reverse.dropWhile ws).reverse)

/-- Characters admitted by Node's legacy url protocol pattern
`/^[a-z0-9.+-]+:/i`. -/
def isProtoChar (c : Char) : Bool :=
  c.isAlpha || c.isDigit || c == '.' || c == '+' || c == '-'

/-- The `protocol` property produced by Node's legacy `url.parse`: the
maximal leading run of protocol characters of the trimmed input, provided it
is nonempty and followed by a colon, lower-cased and including the colon. -/
def urlParseProtocol (s : String) : Option String :=
  let cs := (jsTrim s).data
  let run := cs.takeWhile isProtoChar
  let rest := cs.dropWhile isProtoChar
  match run, rest with
  | [], _ => none
  | _ :: _, ':' :: _ => some (String.mk (run.map Char.toLower) ++ ":")
  | _, _ => none

/-- `hasAcceptableProtocol` from the source: false when `url.parse` finds no
protocol, otherwise the result of testing the regular expression
`http:|https:` against the whole `src` string (a substring match). -/
def hasAcceptableProtocol (src : String) : Bool :=
  match urlParseProtocol src with
  | none => false
  | some _ => strHasSub "http:" src || strHasSub "https:" src

/-! ## The `file-url` dependency -/

/-- UTF-8 bytes of a character (for percent-encoding). -/
def utf8Bytes (c : Char) : List Nat :=
  let n := c.toNat
  if n < 0x80 then [n]
  else if n < 0x800 then [0xC0 + n / 0x40, 0x80 + n % 0x40]
  else if n < 0x10000 then
    [0xE0 + n / 0x1000, 0x80 + (n / 0x40) % 0x40, 0x80 + n % 0x40]
  else
    [0xF0 + n / 0x40000, 0x80 + (n / 0x1000) % 0x40,
      0x80 + (n / 0x40) % 0x40, 0x80 + n % 0x40]

/-- Uppercase hex digit. -/
def hexDigit (n : Nat) : Char :=
  if n < 10 then Char.ofNat (48 + n) else Char.ofNat (55 + n)

/-- Percent-encode one character as its UTF-8 bytes. -/
def pctEncodeChar (c : Char) : List Char :=
  (utf8Bytes c).foldr (fun b acc => '%' :: hexDigit (b / 16) :: hexDigit (b % 16) :: acc) []

/-- Characters left unescaped by JavaScript `encodeURI`. -/
def encodeURIKeep (c : Char) : Bool :=
  c.isAlpha || c.isDigit || ";,/?:@&=+$-_.!~*()#".data.contains c || c.toNat == 39

/-- JavaScript `encodeURI`. -/
def encodeURIStr (s : String) : String :=
  String.mk (s.data.foldr
    (fun c acc => (if encodeURIKeep c then [c] else pctEncodeChar c) ++ acc) [])

/-- Modelled from the `file-url` dependency (not part of this repository):
resolve the path, turn backslashes into slashes, ensure a leading slash, and
`encodeURI('file://' + pathName)`. -/
def fileUrl (cwd p : String) : String :=
  let pn := posixResolve1 cwd p
  let pn := String.mk (pn.data.map (fun c => if c == '\\' then '/' else c))
  let pn := if isAbsPath pn then pn else "/" ++ pn
  encodeURIStr ("file://" ++ pn)

/-! ## The Asset Path Resolver: `processSrc` -/

/-- The resolution context: the process working directory and the
`options.assetDir` base directory derived from the source path. -/
structure ResolveCtx where
  cwd : String
  assetDir : String
deriving Repr, DecidableEq

/-- `processSrc` from the source: a src with an "acceptable protocol" is
returned unchanged; otherwise it is resolved against `options.assetDir` and
rewritten through `fileUrl`. -/
def processSrc (ctx : ResolveCtx) (src : String) : String :=
  if hasAcceptableProtocol src then src
  else fileUrl ctx.cwd (posixResolve2 ctx.cwd ctx.assetDir src)

/-! ## HTML node model and `qualifyImgSources`

The resolver parses the fragment with cheerio, rewrites every `img`
element's `src` attribute, and re-serialises.  We embed the DOM-like
structure directly: `qualifyNode`/`qualifyForest` are the tree-level content
of `qualifyImgSources` (the external parse/serialise round-trip is the
identity on this structure). -/

mutual
inductive HNode where
  | text : String → HNode
  | elem : String → List (String × String) → HForest → HNode
deriving Repr, DecidableEq

inductive HForest where
  | nil : HForest
  | cons : HNode → HForest → HForest
deriving Repr, DecidableEq
end

/-- Rewrite the `src` attribute of an attribute list with `f`. -/
def rewriteSrcAttr (f : String → String) (attrs : List (String × String)) :
    List (String × String) :=
  attrs.map (fun kv => if kv.1 = "src" then (kv.1, f kv.2) else kv)

mutual
/-- Tree-level `qualifyImgSources` on a single node. -/
def qualifyNode (ctx : ResolveCtx) : HNode → HNode
  | .text s => .text s
  | .elem tag attrs children =>
    .elem tag
      (if tag = "img" then rewriteSrcAttr (processSrc ctx) attrs else attrs)
      (qualifyForest ctx children)

/-- Tree-level `qualifyImgSources` on a forest of nodes. -/
def qualifyForest (ctx : ResolveCtx) : HForest → HForest
  | .nil => .nil
  | .cons n rest => .cons (qualifyNode ctx n) (qualifyForest ctx rest)
end

mutual
/-- Whether a node contains an `img` element. -/
def hasImgN : HNode → Bool
  | .text _ => false
  | .elem tag _ children => (if tag = "img" then true else hasImgF children)

/-- Whether a forest contains an `img` element. -/
def hasImgF : HForest → Bool
  | .nil => false
  | .cons n rest => hasImgN n || hasImgF rest
end

mutual
/-- Erase the values of `img` `src` attributes (the only content the
resolver may change); everything this function keeps must be preserved. -/
def eraseSrcN : HNode → HNode
  | .text s => .text s
  | .elem tag attrs children =>
    .elem tag
      (if tag = "img" then rewriteSrcAttr (fun _ => "") attrs else attrs)
      (eraseSrcF children)

/-- Forest version of `eraseSrcN`. -/
def eraseSrcF : HForest → HForest
  | .nil => .nil
  | .cons n rest => .cons (eraseSrcN n) (eraseSrcF rest)
end

/-! ## Markdown Converter model

The Markdown grammar itself is an external black box (showdown with the
GitHub flavor); the source configures it with `prefixHeaderId: false`,
`ghCompatibleHeaderId: true` and layers the emoji extension on exactly when
`convertEmojis` holds. -/

/-- Modelled from the spec: emoji shortcodes recognised by the emoji
extension are colon-delimited alphabetic names from a fixed table. -/
def emojiNames : List String := ["smile", "heart", "wink", "grin", "tada"]

/-- Modelled from the spec: the markup substituted for a recognised emoji
shortcode (a glyph/markup substitution, no longer the literal token). -/
def renderEmoji (name : String) : String :=
  "<img class=\"emoji\" alt=\"" ++ name ++ "\">"

/-- Read a shortcode name (a nonempty alphabetic run terminated by a colon)
from the characters following an opening colon. -/
def takeShortcode (cs : List Char) : Option (List Char × List Char) :=
  match cs.dropWhile Char.isAlpha with
  | ':' :: rest2 =>
    if (cs.takeWhile Char.isAlpha).isEmpty then none
    else some (cs.takeWhile Char.isAlpha, rest2)
  | _ => none

/-- Modelled from the spec: the emoji extension's substitution pass.  A
colon-delimited alphabetic name from the table is replaced by its markup;
anything else (including digit runs such as `00:00:00`) is left alone.
Fuel-driven so that concrete instances reduce inside the kernel; the fuel is
always at least the length of the remaining text. -/
def emojiScanF : Nat → List Char → List Char
  | _, [] => []
  | 0, cs => cs
  | fuel + 1, c :: rest =>
    if c == ':' then
      match takeShortcode rest with
      | some (name, rest2) =>
        if emojiNames.contains (String.mk name) then
          (renderEmoji (String.mk name)).data ++ emojiScanF fuel rest2
        else ':' :: emojiScanF fuel rest
      | none => ':' :: emojiScanF fuel rest
    else c :: emojiScanF fuel rest

/-- The emoji extension as a string transformer. -/
def emojiReplace (s : String) : String :=
  String.mk (emojiScanF s.data.length s.data)

/-- Modelled from the spec: the black-box GitHub-flavored conversion of a
plain text paragraph wraps it in a paragraph element. -/
def showdownBase (s : String) : String :=
  "<p>" ++ s ++ "</p>"

/-- The converter options object built by `parseMarkdownToHtml`. -/
structure SdConvOptions where
  prefixHeaderId : Bool
  ghCompatibleHeaderId : Bool
  extensions : List String
deriving Repr, DecidableEq

/-- Modelled from the spec: `showdown.Converter(options).makeHtml` applies
the configured language extensions and then the base grammar. -/
def showdownMakeHtml (opts : SdConvOptions) (md : String) : String :=
  showdownBase (if opts.extensions.contains "showdown-emoji" then emojiReplace md else md)

/-- `parseMarkdownToHtml` from the source: GitHub flavor, fixed header-id
options, and the emoji extension exactly when `convertEmojis` holds. -/
def parseMarkdownToHtml (markdown : String) (convertEmojis : Bool) : String :=
  showdownMakeHtml
    { prefixHeaderId := false
      ghCompatibleHeaderId := true
      extensions := if convertEmojis then ["showdown-emoji"] else [] }
    markdown

/-! ## Template Composer model -/

/-- The Handlebars placeholder for a bound key. -/
def hbsPlaceholder (key : String) : String :=
  "\x7b\x7b" ++ key ++ "\x7d\x7d"

/-- Modelled from the spec: the templating mechanism is a pure
string-substitution engine; rendering substitutes the bound value for each
occurrence of the key's placeholder (SafeStrings are inserted unescaped). -/
def hbsSubst (layout key value : String) : String :=
  String.mk (replaceAll (hbsPlaceholder key).data value.data layout.data)

/-- The header layout render of `prepareHeader`:
`headerTemplate({content: new Handlebars.SafeString(preparedHeader)})`. -/
def renderHeaderLayout (layout content : String) : String :=
  hbsSubst layout "content" content

/-- The runtime bindings handed to the body layout template. -/
structure LocalB where
  highlightJs : String
  css : String
  header : Option String
  footer : Option String
  body : String
deriving Repr, DecidableEq

/-- The body layout render `template(local)` (missing keys render empty). -/
def renderBodyLayout (layout : String) (l : LocalB) : String :=
  hbsSubst
    (hbsSubst
      (hbsSubst
        (hbsSubst
          (hbsSubst layout "highlightJs" l.highlightJs)
          "css" l.css)
        "header" (l.header.getD ""))
      "footer" (l.footer.getD ""))
    "body" l.body

/-! ## Conversion request, effect environment, and events -/

/-- The per-edge margins of `options.pdf.border`. -/
structure PdfBorder where
  top : String
  right : String
  bottom : String
  left : String
deriving Repr, DecidableEq

/-- The `options.pdf` layout parameters. -/
structure PdfSettings where
  format : String
  border : PdfBorder
deriving Repr, DecidableEq

/-- The recognised fields of the `options` object passed to `convert`. -/
structure ConvOptions where
  source : Option String
  destination : Option String
  header : Option String
  footer : Option String
  styles : Option String
  ghStyle : Bool
  defaultStyle : Bool
  noEmoji : Bool
  debug : Option String
  pdf : PdfSettings
deriving Repr, DecidableEq

/-- The render parameters handed to `page.pdf` (`puppetOptions`). -/
structure PuppetOptions where
  path : String
  displayHeaderFooter : Bool
  printBackground : Bool
  format : String
  marginTop : String
  marginRight : String
  marginBottom : String
  marginLeft : String
  headerTemplate : Option String
  footerTemplate : Option String
deriving Repr, DecidableEq

/-- An observable effect of a conversion run, in execution order. -/
inductive Ev where
  | read : String → Ev
  | write : String → Ev
  | unlink : String → Ev
  | launch : Ev
  | newPage : Ev
  | goto : String → Ev
  | pdf : PuppetOptions → Ev
  | close : Ev
deriving Repr, DecidableEq

/-- The environment a conversion runs in: the process working directory, the
package install directory (`__dirname`), the outcome of every filesystem and
engine step, and the external cheerio-based `qualifyImgSources` string
transformer (first argument: the `assetDir` it is invoked with). -/
structure Env where
  cwd : String
  installDir : String
  fsRead : String → Option String
  fsWriteOk : String → Bool
  launchOk : Bool
  newPageOk : Bool
  gotoOk : Bool
  pdfOk : Bool
  closeOk : Bool
  unlinkOk : Bool
  qualifyStr : String → String → String

/-! Bundled asset locations derived from `__dirname`. -/

/-- `layout.hbs` of the `index.js` variant. -/
def layoutPathIndex (d : String) : String := posixJoin d "layout.hbs"

/-- `layouts/doc-body.hbs` of the `part_000` variant. -/
def layoutPathPart000 (d : String) : String := posixJoin d "/layouts/doc-body.hbs"

/-- `layouts/header.hbs` of the `part_000` variant. -/
def headerLayoutPath (d : String) : String := posixJoin d "/layouts/header.hbs"

/-- `layouts/footer.hbs` of the `part_000` variant (declared, never read). -/
def footerLayoutPath (d : String) : String := posixJoin d "/layouts/footer.hbs"

/-- The bundled syntax-highlighting script reference. -/
def highlightJsConst (d : String) : String :=
  "file://" ++ posixJoin d "/assets/highlight/highlight.pack.js"

/-- The bundled GitHub markdown stylesheet. -/
def ghCssPath (d : String) : String := posixJoin d "/assets/github-markdown-css.css"

/-- The bundled syntax-highlighting stylesheet. -/
def highlightCssPath (d : String) : String :=
  posixJoin d "/assets/highlight/styles/github.css"

/-- The bundled default stylesheet. -/
def defaultCssPath (d : String) : String := posixJoin d "/assets/default.css"

/-! ## Style Composer -/

/-- The stylesheet list assembled by `getAllStyles`, in push order. -/
def cssStyleSheets (env : Env) (o : ConvOptions) : List String :=
  (if o.ghStyle then [ghCssPath env.installDir] else [])
    ++ [highlightCssPath env.installDir]
    ++ (if o.defaultStyle then [defaultCssPath env.installDir] else [])
    ++ (if jsTruthy o.styles then [o.styles.getD ""] else [])

/-- `getCssAsHtml`: read each stylesheet in order with `readFileSync` and
wrap its text verbatim in a style tag; a failed read throws (result `none`).
Also returns the reads performed, in order. -/
def getCssAsHtmlT (env : Env) (paths : List String) : Option String × List Ev :=
  paths.foldl
    (fun acc p =>
      match acc.1 with
      | none => acc
      | some s =>
        match env.fsRead p with
        | none => (none, acc.2 ++ [Ev.read p])
        | some c => (some (s ++ "<style>" ++ c ++ "</style>"), acc.2 ++ [Ev.read p]))
    (some "", [])

/-- The composed style HTML of `getAllStyles` (`none` on a failed read). -/
def cssHtmlOf (env : Env) (o : ConvOptions) : Option String :=
  (getCssAsHtmlT env (cssStyleSheets env o)).1

/-- The reads performed by `getAllStyles`. -/
def cssEvsOf (env : Env) (o : ConvOptions) : List Ev :=
  (getCssAsHtmlT env (cssStyleSheets env o)).2

/-! ## Render Orchestrator (`createPdf`) -/

/-- The options object as it stands when `createPdf` runs: destination, the
current `options.header`/`options.footer` values, and the layout parameters. -/
structure RtOptions where
  destination : String
  header : Option String
  footer : Option String
  pdf : PdfSettings
deriving Repr, DecidableEq

/-- `puppetOptions` of the `index.js` variant: `displayHeaderFooter` is the
literal `false` and no header/footer templates are supplied. -/
def mkPuppetOptionsIndex (rt : RtOptions) : PuppetOptions :=
  { path := rt.destination
    displayHeaderFooter := false
    printBackground := true
    format := rt.pdf.format
    marginTop := rt.pdf.border.top
    marginRight := rt.pdf.border.right
    marginBottom := rt.pdf.border.bottom
    marginLeft := rt.pdf.border.left
    headerTemplate := none
    footerTemplate := none }

/-- `puppetOptions` of the `part_000` variant: the object literal writes
`displayHeaderFooter` twice and the later derived value
`!!options.header || !!options.footer` wins; the header/footer templates are
`options.header || null` and `options.footer || null`. -/
def mkPuppetOptionsPart000 (rt : RtOptions) : PuppetOptions :=
  { path := rt.destination
    displayHeaderFooter := jsTruthy rt.header || jsTruthy rt.footer
    printBackground := true
    format := rt.pdf.format
    marginTop := rt.pdf.border.top
    marginRight := rt.pdf.border.right
    marginBottom := rt.pdf.border.bottom
    marginLeft := rt.pdf.border.left
    headerTemplate := jsOrNull rt.header
    footerTemplate := jsOrNull rt.footer }

deriving instance DecidableEq for Except

/-- The observable outcome of a `createPdf` run. -/
structure PdfRun where
  result : Except String String
  events : List Ev
  launched : Bool
  closed : Bool
  tempDeleted : Bool
  pdfOpts : Option PuppetOptions
deriving Repr, DecidableEq

/-- The deterministic temp-file path: `path.join(path.dirname(destination),
'_temp.html')`. -/
def tempHtmlPathOf (destination : String) : String :=
  posixJoin (posixDirname destination) "_temp.html"

/-- `createPdf` as a sequential chain: write the temp HTML file, launch the
engine, open a page, navigate, print, close, unlink, resolve with the
destination.  The chain has no rejection handler, so the first failing step
rejects with every later step (including `browser.close()` and the unlink)
unexecuted. -/
def createPdfRunWith (mkOpts : RtOptions → PuppetOptions) (env : Env)
    (rt : RtOptions) (_html : String) : PdfRun :=
  let tmp := tempHtmlPathOf rt.destination
  if !env.fsWriteOk tmp then
    { result := Except.error "temp write failed", events := [Ev.write tmp]
      launched := false, closed := false, tempDeleted := false, pdfOpts := none }
  else if !env.launchOk then
    { result := Except.error "launch failed", events := [Ev.write tmp, Ev.launch]
      launched := false, closed := false, tempDeleted := false, pdfOpts := none }
  else if !env.newPageOk then
    { result := Except.error "newPage failed"
      events := [Ev.write tmp, Ev.launch, Ev.newPage]
      launched := true, closed := false, tempDeleted := false, pdfOpts := none }
  else if !env.gotoOk then
    { result := Except.error "goto failed"
      events := [Ev.write tmp, Ev.launch, Ev.newPage, Ev.goto ("file:" ++ tmp)]
      launched := true, closed := false, tempDeleted := false, pdfOpts := none }
  else
    let po := mkOpts rt
    if !env.pdfOk then
      { result := Except.error "pdf failed"
        events := [Ev.write tmp, Ev.launch, Ev.newPage, Ev.goto ("file:" ++ tmp), Ev.pdf po]
        launched := true, closed := false, tempDeleted := false, pdfOpts := some po }
    else if !env.closeOk then
      { result := Except.error "close failed"
        events := [Ev.write tmp, Ev.launch, Ev.newPage, Ev.goto ("file:" ++ tmp),
          Ev.pdf po, Ev.close]
        launched := true, closed := false, tempDeleted := false, pdfOpts := some po }
    else if !env.unlinkOk then
      { result := Except.error "unlink failed"
        events := [Ev.write tmp, Ev.launch, Ev.newPage, Ev.goto ("file:" ++ tmp),
          Ev.pdf po, Ev.close, Ev.unlink tmp]
        launched := true, closed := true, tempDeleted := false, pdfOpts := some po }
    else
      { result := Except.ok rt.destination
        events := [Ev.write tmp, Ev.launch, Ev.newPage, Ev.goto ("file:" ++ tmp),
          Ev.pdf po, Ev.close, Ev.unlink tmp]
        launched := true, closed := true, tempDeleted := true, pdfOpts := some po }

/-! ## The `convert` pipelines of the two variants

Each variant is staged exactly as its promise chain is: the synchronous
option checks, the synchronous `getAllStyles`, then the sequence of file
reads and preparations, then `createPdf`.  Each stage threads the events
performed so far and the `assetDir` values passed to `qualifyImgSources`. -/

/-- The state of a conversion just before `createPdf`. -/
structure Prep where
  rt : RtOptions
  html : String
  events : List Ev
  assetDirs : List String
  headerDoc : Option String
  footerDoc : Option String
deriving Repr, DecidableEq

/-- A rejection raised before `createPdf`, with the events and qualify
calls already performed. -/
structure PrepErr where
  msg : String
  events : List Ev
  assetDirs : List String
deriving Repr, DecidableEq

/-- `index.js`: the final stage of the chain — read the source Markdown,
convert it (emoji extension iff `noEmoji` unset), qualify image sources,
bind everything into the body layout and optionally persist the debug
HTML. -/
def bodyStageIndex (env : Env) (o : ConvOptions) (dest assetDir css layout : String)
    (evs : List Ev) (dirs : List String) (hDoc fDoc : Option String) :
    Except PrepErr Prep :=
  let srcPath := o.source.getD ""
  match env.fsRead srcPath with
  | none => Except.error ⟨"source read failed", evs ++ [Ev.read srcPath], dirs⟩
  | some md =>
    let content := env.qualifyStr assetDir (parseMarkdownToHtml md (!o.noEmoji))
    let html := renderBodyLayout layout
      { highlightJs := highlightJsConst env.installDir, css := css
        header := hDoc, footer := fDoc, body := content }
    let evs2 := evs ++ [Ev.read srcPath]
    let dirs2 := dirs ++ [assetDir]
    let rt : RtOptions :=
      { destination := dest, header := o.header, footer := o.footer, pdf := o.pdf }
    if jsTruthy o.debug then
      let dp := o.debug.getD ""
      if env.fsWriteOk dp then
        Except.ok { rt := rt, html := html, events := evs2 ++ [Ev.write dp]
                    assetDirs := dirs2, headerDoc := hDoc, footerDoc := fDoc }
      else Except.error ⟨"debug write failed", evs2 ++ [Ev.write dp], dirs2⟩
    else
      Except.ok { rt := rt, html := html, events := evs2
                  assetDirs := dirs2, headerDoc := hDoc, footerDoc := fDoc }

/-- `index.js`: the footer step — when `options.footer` is truthy its file is
read; a truthy content is qualified against `assetDir` and bound as
`local.footer`. -/
def footerStageIndex (env : Env) (o : ConvOptions) (dest assetDir css layout : String)
    (evs : List Ev) (dirs : List String) (hDoc : Option String) :
    Except PrepErr Prep :=
  if jsTruthy o.footer then
    let fp := o.footer.getD ""
    match env.fsRead fp with
    | none => Except.error ⟨"footer read failed", evs ++ [Ev.read fp], dirs⟩
    | some fContent =>
      if fContent != "" then
        bodyStageIndex env o dest assetDir css layout (evs ++ [Ev.read fp])
          (dirs ++ [assetDir]) hDoc (some (env.qualifyStr assetDir fContent))
      else
        bodyStageIndex env o dest assetDir css layout (evs ++ [Ev.read fp]) dirs hDoc none
  else
    bodyStageIndex env o dest assetDir css layout evs dirs hDoc none

/-- `index.js`: the header step (symmetric to the footer step). -/
def headerStageIndex (env : Env) (o : ConvOptions) (dest assetDir css layout : String)
    (evs : List Ev) (dirs : List String) : Except PrepErr Prep :=
  if jsTruthy o.header then
    let hp := o.header.getD ""
    match env.fsRead hp with
    | none => Except.error ⟨"header read failed", evs ++ [Ev.read hp], dirs⟩
    | some hContent =>
      if hContent != "" then
        footerStageIndex env o dest assetDir css layout (evs ++ [Ev.read hp])
          (dirs ++ [assetDir]) (some (env.qualifyStr assetDir hContent))
      else
        footerStageIndex env o dest assetDir css layout (evs ++ [Ev.read hp]) dirs none
  else
    footerStageIndex env o dest assetDir css layout evs dirs none

/-- `index.js` `convert` up to (not including) `createPdf`: the synchronous
mandatory-option checks, the single `assetDir` derivation, the synchronous
style composition, the layout read, then header/footer/body preparation. -/
def convertPrepIndex (env : Env) (o : ConvOptions) : Except PrepErr Prep :=
  if !jsTruthy o.source then Except.error ⟨"Source path must be provided", [], []⟩
  else if !jsTruthy o.destination then
    Except.error ⟨"Destination path must be provided", [], []⟩
  else
    let assetDir := posixDirname (posixResolve1 env.cwd (o.source.getD ""))
    match cssHtmlOf env o with
    | none => Except.error ⟨"stylesheet read failed", cssEvsOf env o, []⟩
    | some css =>
      let lp := layoutPathIndex env.installDir
      match env.fsRead lp with
      | none => Except.error ⟨"layout read failed", cssEvsOf env o ++ [Ev.read lp], []⟩
      | some layout =>
        headerStageIndex env o (o.destination.getD "") assetDir css layout
          (cssEvsOf env o ++ [Ev.read lp]) []

/-- `part_000`: read the body layout, read the source Markdown, convert,
qualify, bind into the body layout (which has no header/footer bindings). -/
def bodyStagePart000 (env : Env) (o : ConvOptions) (dest assetDir css : String)
    (evs : List Ev) (dirs : List String) (hDoc fDoc : Option String) :
    Except PrepErr Prep :=
  let lp := layoutPathPart000 env.installDir
  match env.fsRead lp with
  | none => Except.error ⟨"layout read failed", evs ++ [Ev.read lp], dirs⟩
  | some layout =>
    let srcPath := o.source.getD ""
    match env.fsRead srcPath with
    | none =>
      Except.error ⟨"source read failed", evs ++ [Ev.read lp, Ev.read srcPath], dirs⟩
    | some md =>
      let content := env.qualifyStr assetDir (parseMarkdownToHtml md (!o.noEmoji))
      let html := renderBodyLayout layout
        { highlightJs := highlightJsConst env.installDir, css := css
          header := none, footer := none, body := content }
      Except.ok
        { rt := { destination := dest, header := hDoc, footer := fDoc, pdf := o.pdf }
          html := html, events := evs ++ [Ev.read lp, Ev.read srcPath]
          assetDirs := dirs ++ [assetDir], headerDoc := hDoc, footerDoc := fDoc }

/-- `part_000` `prepareFooter`: when `options.footer` is truthy, read it and
qualify its image sources; the result overwrites `options.footer`. -/
def footerStagePart000 (env : Env) (o : ConvOptions) (dest assetDir css : String)
    (evs : List Ev) (dirs : List String) (hDoc : Option String) :
    Except PrepErr Prep :=
  if jsTruthy o.footer then
    let fp := o.footer.getD ""
    match env.fsRead fp with
    | none => Except.error ⟨"footer read failed", evs ++ [Ev.read fp], dirs⟩
    | some fContent =>
      bodyStagePart000 env o dest assetDir css (evs ++ [Ev.read fp])
        (dirs ++ [assetDir]) hDoc (some (env.qualifyStr assetDir fContent))
  else
    bodyStagePart000 env o dest assetDir css evs dirs hDoc none

/-- `part_000` `prepareHeader`: when `options.header` is truthy, read the
bundled header layout and the header file, qualify the content, and render
the header layout with the qualified content bound; the result overwrites
`options.header`. -/
def headerStagePart000 (env : Env) (o : ConvOptions) (dest assetDir css : String)
    (evs : List Ev) (dirs : List String) : Except PrepErr Prep :=
  if jsTruthy o.header then
    let hlp := headerLayoutPath env.installDir
    match env.fsRead hlp with
    | none => Except.error ⟨"header layout read failed", evs ++ [Ev.read hlp], dirs⟩
    | some hLayout =>
      let hp := o.header.getD ""
      match env.fsRead hp with
      | none =>
        Except.error ⟨"header read failed", evs ++ [Ev.read hlp, Ev.read hp], dirs⟩
      | some hContent =>
        footerStagePart000 env o dest assetDir css (evs ++ [Ev.read hlp, Ev.read hp])
          (dirs ++ [assetDir])
          (some (renderHeaderLayout hLayout (env.qualifyStr assetDir hContent)))
  else
    footerStagePart000 env o dest assetDir css evs dirs none

/-- `part_000` `convert` up to (not including) `createPdf`. -/
def convertPrepPart000 (env : Env) (o : ConvOptions) : Except PrepErr Prep :=
  if !jsTruthy o.source then Except.error ⟨"Source path must be provided", [], []⟩
  else if !jsTruthy o.destination then
    Except.error ⟨"Destination path must be provided", [], []⟩
  else
    let assetDir := posixDirname (posixResolve1 env.cwd (o.source.getD ""))
    match cssHtmlOf env o with
    | none => Except.error ⟨"stylesheet read failed", cssEvsOf env o, []⟩
    | some css =>
      headerStagePart000 env o (o.destination.getD "") assetDir css
        (cssEvsOf env o) []

/-- The observable outcome of a whole `convert` run. -/
structure ConvRun where
  result : Except String String
  events : List Ev
  assetDirs : List String
  launched : Bool
  closed : Bool
  tempDeleted : Bool
  pdfOpts : Option PuppetOptions
  headerDoc : Option String
  footerDoc : Option String
deriving Repr, DecidableEq

/-- Combine a preparation outcome with the `createPdf` chain. -/
def convertRunWith (mkOpts : RtOptions → PuppetOptions) (env : Env)
    (prep : Except PrepErr Prep) : ConvRun :=
  match prep with
  | Except.error e =>
    { result := Except.error e.msg, events := e.events, assetDirs := e.assetDirs
      launched := false, closed := false, tempDeleted := false
      pdfOpts := none, headerDoc := none, footerDoc := none }
  | Except.ok p =>
    let pr := createPdfRunWith mkOpts env p.rt p.html
    { result := pr.result, events := p.events ++ pr.events, assetDirs := p.assetDirs
      launched := pr.launched, closed := pr.closed, tempDeleted := pr.tempDeleted
      pdfOpts := pr.pdfOpts, headerDoc := p.headerDoc, footerDoc := p.footerDoc }

/-- A whole `convert` run of the `index.js` variant. -/
def convertRunIndex (env : Env) (o : ConvOptions) : ConvRun :=
  convertRunWith mkPuppetOptionsIndex env (convertPrepIndex env o)

/-- A whole `convert` run of the `part_000` variant. -/
def convertRunPart000 (env : Env) (o : ConvOptions) : ConvRun :=
  convertRunWith mkPuppetOptionsPart000 env (convertPrepPart000 env o)

/-! ## Helper lemmas: substring occurrence and template substitution -/

theorem prefixCk_self_append (n y : List Char) : prefixCk n (n ++ y) = true := by
  induction n with
  | nil => rfl
  | cons a as ih => simp [prefixCk, ih]

theorem hasSub_self_append (n y : List Char) : hasSub n (n ++ y) = true := by
  rcases n with _ | ⟨a, as⟩
  · rcases y with _ | ⟨b, bs⟩
    · rfl
    · simp [hasSub, prefixCk]
  · simp only [List.cons_append, hasSub, Bool.or_eq_true]
    left
    simpa [List.cons_append] using prefixCk_self_append (a :: as) y

theorem hasSub_cons (n : List Char) (c : Char) (l : List Char)
    (h : hasSub n l = true) : hasSub n (c :: l) = true := by
  simp [hasSub, h]

theorem hasSub_append_left (n x l : List Char) (h : hasSub n l = true) :
    hasSub n (x ++ l) = true := by
  induction x with
  | nil => simpa using h
  | cons a as ih => simp [hasSub, ih]

theorem replaceAllF_hasSub (sep repl : List Char) (hsep : sep ≠ []) :
    ∀ fuel hay, hay.length ≤ fuel → hasSub sep hay = true →
      hasSub repl (replaceAllF sep repl fuel hay) = true := by
  intro fuel
  induction fuel with
  | zero =>
    intro hay hlen hh
    have : hay = [] := by
      cases hay with
      | nil => rfl
      | cons c rest => simp at hlen
    subst this
    cases sep with
    | nil => exact absurd rfl hsep
    | cons a as => simp [hasSub] at hh
  | succ fuel ih =>
    intro hay hlen hh
    cases hay with
    | nil =>
      cases sep with
      | nil => exact absurd rfl hsep
      | cons a as => simp [hasSub] at hh
    | cons c rest =>
      rw [replaceAllF]
      by_cases hpre : prefixCk sep (c :: rest) = true
      · have hcond : (!sep.isEmpty && prefixCk sep (c :: rest)) = true := by
          cases sep with
          | nil => exact absurd rfl hsep
          | cons a as => simp [List.isEmpty, hpre]
        rw [if_pos hcond]
        exact hasSub_self_append repl _
      · have hcond : (!sep.isEmpty && prefixCk sep (c :: rest)) = false := by
          simp [Bool.and_eq_true] at hpre ⊢
          intro _
          exact hpre
        rw [if_neg (by simp [hcond])]
        have hrest : hasSub sep rest = true := by
          have := hh
          simp only [hasSub, Bool.or_eq_true] at this
          rcases this with h1 | h2
          · exact absurd h1 hpre
          · exact h2
        have := ih rest (by simpa using Nat.lt_succ_iff.mp (Nat.lt_of_lt_of_le (Nat.lt_succ_of_le (Nat.le_refl _)) (by simpa using hlen))) hrest
        exact hasSub_cons _ _ _ this

theorem replaceAll_hasSub (sep repl hay : List Char) (hsep : sep ≠ [])
    (h : hasSub sep hay = true) :
    hasSub repl (replaceAll sep repl hay) = true :=
  replaceAllF_hasSub sep repl hsep hay.length hay (Nat.le_refl _) h

theorem strData_ne_nil {s : String} (h : s ≠ "") : s.data ≠ [] := by
  intro hd
  exact h (String.ext (by simp [hd]))

theorem hbsPlaceholder_data_ne_nil (key : String) : (hbsPlaceholder key).data ≠ [] := by
  simp only [hbsPlaceholder, String.data_append]
  intro hd
  simp at hd

theorem hbsSubst_contains (layout key value : String)
    (h : strHasSub (hbsPlaceholder key) layout = true) :
    strHasSub value (hbsSubst layout key value) = true := by
  simpa [strHasSub, hbsSubst] using
    replaceAll_hasSub (hbsPlaceholder key).data value.data layout.data
      (hbsPlaceholder_data_ne_nil key) h

theorem hbsSubst_ne_empty (layout key value : String)
    (h : strHasSub (hbsPlaceholder key) layout = true) (hv : value ≠ "") :
    hbsSubst layout key value ≠ "" := by
  have h1 := hbsSubst_contains layout key value h
  intro he
  rw [he] at h1
  simp only [strHasSub, hasSub] at h1
  exact strData_ne_nil hv (by simpa using h1)

theorem renderHeaderLayout_contains (layout content : String)
    (h : strHasSub (hbsPlaceholder "content") layout = true) :
    strHasSub content (renderHeaderLayout layout content) = true :=
  hbsSubst_contains layout "content" content h

theorem renderHeaderLayout_ne_empty (layout content : String)
    (h : strHasSub (hbsPlaceholder "content") layout = true) (hv : content ≠ "") :
    renderHeaderLayout layout content ≠ "" :=
  hbsSubst_ne_empty layout "content" content h hv

/-! ## Structural lemmas about the pipeline stages -/

theorem createPdfRunWith_pdfOpts {mkOpts : RtOptions → PuppetOptions} {env : Env}
    {rt : RtOptions} {html : String} {po : PuppetOptions}
    (h : (createPdfRunWith mkOpts env rt html).pdfOpts = some po) : po = mkOpts rt := by
  unfold createPdfRunWith at h
  rcases hw : env.fsWriteOk (tempHtmlPathOf rt.destination) with _ | _ <;>
    rcases hl : env.launchOk with _ | _ <;>
      rcases hn : env.newPageOk with _ | _ <;>
        rcases hg : env.gotoOk with _ | _ <;>
          rcases hp : env.pdfOk with _ | _ <;>
            rcases hc : env.closeOk with _ | _ <;>
              rcases hu : env.unlinkOk with _ | _ <;>
                simp_all

theorem createPdfRunWith_ok {mkOpts : RtOptions → PuppetOptions} {env : Env}
    {rt : RtOptions} {html : String} {d : String}
    (h : (createPdfRunWith mkOpts env rt html).result = Except.ok d) :
    d = rt.destination ∧ (createPdfRunWith mkOpts env rt html).closed = true ∧
    (createPdfRunWith mkOpts env rt html).tempDeleted = true ∧
    (createPdfRunWith mkOpts env rt html).events =
      [Ev.write (tempHtmlPathOf rt.destination), Ev.launch, Ev.newPage,
        Ev.goto ("file:" ++ tempHtmlPathOf rt.destination),
        Ev.pdf (mkOpts rt), Ev.close, Ev.unlink (tempHtmlPathOf rt.destination)] := by
  unfold createPdfRunWith at h ⊢
  rcases hw : env.fsWriteOk (tempHtmlPathOf rt.destination) with _ | _ <;>
    rcases hl : env.launchOk with _ | _ <;>
      rcases hn : env.newPageOk with _ | _ <;>
        rcases hg : env.gotoOk with _ | _ <;>
          rcases hp : env.pdfOk with _ | _ <;>
            rcases hc : env.closeOk with _ | _ <;>
              rcases hu : env.unlinkOk with _ | _ <;>
                simp_all

theorem convertRunWith_pdfOpts {mkOpts : RtOptions → PuppetOptions} {env : Env}
    {prep : Except PrepErr Prep} {po : PuppetOptions}
    (h : (convertRunWith mkOpts env prep).pdfOpts = some po) :
    ∃ p, prep = Except.ok p ∧ po = mkOpts p.rt ∧
      (convertRunWith mkOpts env prep).headerDoc = p.headerDoc ∧
      (convertRunWith mkOpts env prep).footerDoc = p.footerDoc := by
  cases prep with
  | error e => simp [convertRunWith] at h
  | ok p =>
    refine ⟨p, rfl, ?_, rfl, rfl⟩
    exact createPdfRunWith_pdfOpts (by simpa [convertRunWith] using h)

theorem convertRunWith_ok {mkOpts : RtOptions → PuppetOptions} {env : Env}
    {prep : Except PrepErr Prep} {d : String}
    (h : (convertRunWith mkOpts env prep).result = Except.ok d) :
    ∃ p, prep = Except.ok p ∧ d = p.rt.destination ∧
      (convertRunWith mkOpts env prep).tempDeleted = true ∧
      ∃ pre, (convertRunWith mkOpts env prep).events =
        pre ++ [Ev.unlink (tempHtmlPathOf p.rt.destination)] := by
  cases prep with
  | error e => simp [convertRunWith] at h
  | ok p =>
    have h2 : (createPdfRunWith mkOpts env p.rt p.html).result = Except.ok d := by
      simpa [convertRunWith] using h
    obtain ⟨hd, _, htmp, hevs⟩ := createPdfRunWith_ok h2
    refine ⟨p, rfl, hd, by simpa [convertRunWith] using htmp, ?_⟩
    refine ⟨p.events ++ [Ev.write (tempHtmlPathOf p.rt.destination), Ev.launch, Ev.newPage,
      Ev.goto ("file:" ++ tempHtmlPathOf p.rt.destination),
      Ev.pdf (mkOpts p.rt), Ev.close], ?_⟩
    simp [convertRunWith, hevs]

theorem bodyStageIndex_ok {env : Env} {o : ConvOptions}
    {dest assetDir css layout : String} {evs : List Ev} {dirs : List String}
    {hDoc fDoc : Option String} {p : Prep}
    (h : bodyStageIndex env o dest assetDir css layout evs dirs hDoc fDoc = Except.ok p) :
    p.rt.destination = dest := by
  unfold bodyStageIndex at h
  rcases hr : env.fsRead (o.source.getD "") with _ | md <;>
    rcases hd : jsTruthy o.debug with _ | _ <;>
      rcases hw : env.fsWriteOk (o.debug.getD "") with _ | _ <;>
        simp_all <;> (subst h; rfl)

theorem footerStageIndex_ok {env : Env} {o : ConvOptions}
    {dest assetDir css layout : String} {evs : List Ev} {dirs : List String}
    {hDoc : Option String} {p : Prep}
    (h : footerStageIndex env o dest assetDir css layout evs dirs hDoc = Except.ok p) :
    p.rt.destination = dest := by
  unfold footerStageIndex at h
  rcases hf : jsTruthy o.footer with _ | _ <;>
    rcases hr : env.fsRead (o.footer.getD "") with _ | fContent <;>
      simp_all <;>
        first
          | exact bodyStageIndex_ok h
          | (rcases hfc : fContent == "" with _ | _ <;> simp_all <;>
              exact bodyStageIndex_ok h)

theorem headerStageIndex_ok {env : Env} {o : ConvOptions}
    {dest assetDir css layout : String} {evs : List Ev} {dirs : List String} {p : Prep}
    (h : headerStageIndex env o dest assetDir css layout evs dirs = Except.ok p) :
    p.rt.destination = dest := by
  unfold headerStageIndex at h
  rcases hh : jsTruthy o.header with _ | _ <;>
    rcases hr : env.fsRead (o.header.getD "") with _ | hContent <;>
      simp_all <;>
        first
          | exact footerStageIndex_ok h
          | (rcases hhc : hContent == "" with _ | _ <;> simp_all <;>
              exact footerStageIndex_ok h)

theorem convertPrepIndex_ok {env : Env} {o : ConvOptions} {p : Prep}
    (h : convertPrepIndex env o = Except.ok p) :
    p.rt.destination = o.destination.getD "" := by
  unfold convertPrepIndex at h
  rcases hs : jsTruthy o.source with _ | _ <;>
    rcases hd : jsTruthy o.destination with _ | _ <;>
      rcases hc : cssHtmlOf env o with _ | css <;>
        rcases hl : env.fsRead (layoutPathIndex env.installDir) with _ | layout <;>
          simp_all <;> exact headerStageIndex_ok h

theorem bodyStagePart000_ok {env : Env} {o : ConvOptions}
    {dest assetDir css : String} {evs : List Ev} {dirs : List String}
    {hDoc fDoc : Option String} {p : Prep}
    (h : bodyStagePart000 env o dest assetDir css evs dirs hDoc fDoc = Except.ok p) :
    p.rt.destination = dest ∧ p.rt.header = hDoc ∧ p.rt.footer = fDoc ∧
    p.headerDoc = hDoc ∧ p.footerDoc = fDoc := by
  unfold bodyStagePart000 at h
  rcases hl : env.fsRead (layoutPathPart000 env.installDir) with _ | layout <;>
    rcases hr : env.fsRead (o.source.getD "") with _ | md <;>
      simp_all <;> (subst h; exact ⟨rfl, rfl, rfl, rfl, rfl⟩)

theorem footerStagePart000_ok {env : Env} {o : ConvOptions}
    {dest assetDir css : String} {evs : List Ev} {dirs : List String}
    {hDoc : Option String} {p : Prep}
    (h : footerStagePart000 env o dest assetDir css evs dirs hDoc = Except.ok p) :
    p.rt.destination = dest ∧ p.rt.header = hDoc ∧ p.headerDoc = hDoc ∧
    p.rt.footer = p.footerDoc ∧
    (jsTruthy o.footer = false → p.rt.footer = none) ∧
    (∀ fContent, jsTruthy o.footer = true →
      env.fsRead (o.footer.getD "") = some fContent →
      p.rt.footer = some (env.qualifyStr assetDir fContent)) := by
  unfold footerStagePart000 at h
  rcases hf : jsTruthy o.footer with _ | _
  · rw [hf] at h
    simp only [Bool.false_eq_true, if_false] at h
    obtain ⟨h1, h2, h3, h4, h5⟩ := bodyStagePart000_ok h
    refine ⟨h1, h2, h4, by rw [h3, h5], fun _ => h3, ?_⟩
    intro fc hft _
    simp at hft
  · rw [hf] at h
    simp only [if_true] at h
    rcases hr : env.fsRead (o.footer.getD "") with _ | fContent <;> rw [hr] at h
    · simp at h
    · obtain ⟨h1, h2, h3, h4, h5⟩ := bodyStagePart000_ok h
      refine ⟨h1, h2, h4, by rw [h3, h5], ?_, ?_⟩
      · intro hff; simp at hff
      · intro fc _ hread
        injection hread with hfc
        subst hfc
        exact h3

theorem headerStagePart000_ok {env : Env} {o : ConvOptions}
    {dest assetDir css : String} {evs : List Ev} {dirs : List String} {p : Prep}
    (h : headerStagePart000 env o dest assetDir css evs dirs = Except.ok p) :
    p.rt.destination = dest ∧ p.rt.header = p.headerDoc ∧ p.rt.footer = p.footerDoc ∧
    (jsTruthy o.header = false → p.rt.header = none) ∧
    (∀ hLayout hContent, jsTruthy o.header = true →
      env.fsRead (headerLayoutPath env.installDir) = some hLayout →
      env.fsRead (o.header.getD "") = some hContent →
      p.rt.header = some (renderHeaderLayout hLayout (env.qualifyStr assetDir hContent))) ∧
    (jsTruthy o.footer = false → p.rt.footer = none) ∧
    (∀ fContent, jsTruthy o.footer = true →
      env.fsRead (o.footer.getD "") = some fContent →
      p.rt.footer = some (env.qualifyStr assetDir fContent)) := by
  unfold headerStagePart000 at h
  rcases hh : jsTruthy o.header with _ | _
  · rw [hh] at h
    simp only [Bool.false_eq_true, if_false] at h
    obtain ⟨h1, h2, h3, h4, h5, h6⟩ := footerStagePart000_ok h
    refine ⟨h1, by rw [h2, h3], h4, fun _ => h2, ?_, h5, h6⟩
    intro hL hC hht _ _
    simp at hht
  · rw [hh] at h
    simp only [if_true] at h
    rcases hl : env.fsRead (headerLayoutPath env.installDir) with _ | hLayout <;> rw [hl] at h
    · simp at h
    · rcases hc : env.fsRead (o.header.getD "") with _ | hContent <;> rw [hc] at h
      · simp at h
      · obtain ⟨h1, h2, h3, h4, h5, h6⟩ := footerStagePart000_ok h
        refine ⟨h1, by rw [h2, h3], h4, ?_, ?_, h5, h6⟩
        · intro hhf; simp at hhf
        · intro hL hC _ hlr hcr
          injection hlr with hl2
          subst hl2
          injection hcr with hc2
          subst hc2
          exact h2

theorem convertPrepPart000_ok {env : Env} {o : ConvOptions} {p : Prep}
    (h : convertPrepPart000 env o = Except.ok p) :
    p.rt.destination = o.destination.getD "" ∧
    p.rt.header = p.headerDoc ∧ p.rt.footer = p.footerDoc ∧
    (jsTruthy o.header = false → p.rt.header = none) ∧
    (∀ hLayout hContent, jsTruthy o.header = true →
      env.fsRead (headerLayoutPath env.installDir) = some hLayout →
      env.fsRead (o.header.getD "") = some hContent →
      p.rt.header = some (renderHeaderLayout hLayout
        (env.qualifyStr (posixDirname (posixResolve1 env.cwd (o.source.getD ""))) hContent))) ∧
    (jsTruthy o.footer = false → p.rt.footer = none) ∧
    (∀ fContent, jsTruthy o.footer = true →
      env.fsRead (o.footer.getD "") = some fContent →
      p.rt.footer = some
        (env.qualifyStr (posixDirname (posixResolve1 env.cwd (o.source.getD ""))) fContent)) := by
  unfold convertPrepPart000 at h
  rcases hs : jsTruthy o.source with _ | _ <;> rw [hs] at h
  · simp at h
  · rcases hd : jsTruthy o.destination with _ | _ <;> rw [hd] at h
    · simp at h
    · simp only [Bool.not_true, Bool.false_eq_true, if_false] at h
      rcases hc : cssHtmlOf env o with _ | css <;> rw [hc] at h
      · simp at h
      · exact headerStagePart000_ok h

/-! ## The assetDir invariant: every qualify call uses the single derived
base directory -/

/-- The `assetDir` values recorded by a preparation outcome. -/
def dirsOfPrep : Except PrepErr Prep → List String
  | Except.error e => e.assetDirs
  | Except.ok p => p.assetDirs

theorem memAppendSingleton {dirs : List String} {assetDir d : String}
    (hd : ∀ x ∈ dirs, x = assetDir) (hm : d ∈ dirs ++ [assetDir]) : d = assetDir := by
  rcases List.mem_append.mp hm with h1 | h2
  · exact hd d h1
  · simpa using h2

theorem bodyStageIndex_dirs {env : Env} {o : ConvOptions}
    {dest assetDir css layout : String} {evs : List Ev} {dirs : List String}
    {hDoc fDoc : Option String}
    (hd : ∀ x ∈ dirs, x = assetDir) :
    ∀ d ∈ dirsOfPrep (bodyStageIndex env o dest assetDir css layout evs dirs hDoc fDoc),
      d = assetDir := by
  unfold bodyStageIndex
  rcases hr : env.fsRead (o.source.getD "") with _ | md <;>
    rcases hdg : jsTruthy o.debug with _ | _ <;>
      rcases hw : env.fsWriteOk (o.debug.getD "") with _ | _ <;>
        simp only [hr, hdg, hw, dirsOfPrep, Bool.false_eq_true, if_false, if_true,
          eq_self_iff_true] <;>
          intro d hm <;>
            first
              | exact hd d hm
              | exact memAppendSingleton hd hm

theorem footerStageIndex_dirs {env : Env} {o : ConvOptions}
    {dest assetDir css layout : String} {evs : List Ev} {dirs : List String}
    {hDoc : Option String}
    (hd : ∀ x ∈ dirs, x = assetDir) :
    ∀ d ∈ dirsOfPrep (footerStageIndex env o dest assetDir css layout evs dirs hDoc),
      d = assetDir := by
  unfold footerStageIndex
  rcases hf : jsTruthy o.footer with _ | _
  · simp only [hf, Bool.false_eq_true, if_false]
    exact bodyStageIndex_dirs hd
  · simp only [hf, if_true]
    rcases hr : env.fsRead (o.footer.getD "") with _ | fContent <;>
      simp only [hr]
    · simp only [dirsOfPrep]
      exact hd
    · rcases hfc : fContent != "" with _ | _ <;>
        simp only [hfc, Bool.false_eq_true, if_false, if_true]
      · exact bodyStageIndex_dirs hd
      · exact bodyStageIndex_dirs (fun x hx => memAppendSingleton hd hx)

theorem headerStageIndex_dirs {env : Env} {o : ConvOptions}
    {dest assetDir css layout : String} {evs : List Ev} {dirs : List String}
    (hd : ∀ x ∈ dirs, x = assetDir) :
    ∀ d ∈ dirsOfPrep (headerStageIndex env o dest assetDir css layout evs dirs),
      d = assetDir := by
  unfold headerStageIndex
  rcases hh : jsTruthy o.header with _ | _
  · simp only [hh, Bool.false_eq_true, if_false]
    exact footerStageIndex_dirs hd
  · simp only [hh, if_true]
    rcases hr : env.fsRead (o.header.getD "") with _ | hContent <;>
      simp only [hr]
    · simp only [dirsOfPrep]
      exact hd
    · rcases hhc : hContent != "" with _ | _ <;>
        simp only [hhc, Bool.false_eq_true, if_false, if_true]
      · exact footerStageIndex_dirs hd
      · exact footerStageIndex_dirs (fun x hx => memAppendSingleton hd hx)

theorem convertPrepIndex_dirs (env : Env) (o : ConvOptions) :
    ∀ d ∈ dirsOfPrep (convertPrepIndex env o),
      d = posixDirname (posixResolve1 env.cwd (o.source.getD "")) := by
  unfold convertPrepIndex
  rcases hs : jsTruthy o.source with _ | _ <;>
    simp only [hs, Bool.not_false, Bool.not_true, Bool.false_eq_true, if_false, if_true]
  · intro d hm; simp [dirsOfPrep] at hm
  · rcases hd : jsTruthy o.destination with _ | _ <;>
      simp only [hd, Bool.not_false, Bool.not_true, Bool.false_eq_true, if_false, if_true]
    · intro d hm; simp [dirsOfPrep] at hm
    · rcases hc : cssHtmlOf env o with _ | css <;> simp only [hc]
      · intro d hm; simp [dirsOfPrep] at hm
      · rcases hl : env.fsRead (layoutPathIndex env.installDir) with _ | layout <;>
          simp only [hl]
        · intro d hm; simp [dirsOfPrep] at hm
        · exact headerStageIndex_dirs (fun x hx => absurd hx (List.not_mem_nil x))

theorem bodyStagePart000_dirs {env : Env} {o : ConvOptions}
    {dest assetDir css : String} {evs : List Ev} {dirs : List String}
    {hDoc fDoc : Option String}
    (hd : ∀ x ∈ dirs, x = assetDir) :
    ∀ d ∈ dirsOfPrep (bodyStagePart000 env o dest assetDir css evs dirs hDoc fDoc),
      d = assetDir := by
  unfold bodyStagePart000
  rcases hl : env.fsRead (layoutPathPart000 env.installDir) with _ | layout <;>
    rcases hr : env.fsRead (o.source.getD "") with _ | md <;>
      simp only [hl, hr, dirsOfPrep] <;>
        intro d hm <;>
          first
            | exact hd d hm
            | exact memAppendSingleton hd hm

theorem footerStagePart000_dirs {env : Env} {o : ConvOptions}
    {dest assetDir css : String} {evs : List Ev} {dirs : List String}
    {hDoc : Option String}
    (hd : ∀ x ∈ dirs, x = assetDir) :
    ∀ d ∈ dirsOfPrep (footerStagePart000 env o dest assetDir css evs dirs hDoc),
      d = assetDir := by
  unfold footerStagePart000
  rcases hf : jsTruthy o.footer with _ | _
  · simp only [hf, Bool.false_eq_true, if_false]
    exact bodyStagePart000_dirs hd
  · simp only [hf, if_true]
    rcases hr : env.fsRead (o.footer.getD "") with _ | fContent <;>
      simp only [hr]
    · simp only [dirsOfPrep]
      exact hd
    · exact bodyStagePart000_dirs (fun x hx => memAppendSingleton hd hx)

theorem headerStagePart000_dirs {env : Env} {o : ConvOptions}
    {dest assetDir css : String} {evs : List Ev} {dirs : List String}
    (hd : ∀ x ∈ dirs, x = assetDir) :
    ∀ d ∈ dirsOfPrep (headerStagePart000 env o dest assetDir css evs dirs),
      d = assetDir := by
  unfold headerStagePart000
  rcases hh : jsTruthy o.header with _ | _
  · simp only [hh, Bool.false_eq_true, if_false]
    exact footerStagePart000_dirs hd
  · simp only [hh, if_true]
    rcases hl : env.fsRead (headerLayoutPath env.installDir) with _ | hLayout <;>
      simp only [hl]
    · simp only [dirsOfPrep]
      exact hd
    · rcases hc : env.fsRead (o.header.getD "") with _ | hContent <;>
        simp only [hc]
      · simp only [dirsOfPrep]
        exact hd
      · exact footerStagePart000_dirs (fun x hx => memAppendSingleton hd hx)

theorem convertPrepPart000_dirs (env : Env) (o : ConvOptions) :
    ∀ d ∈ dirsOfPrep (convertPrepPart000 env o),
      d = posixDirname (posixResolve1 env.cwd (o.source.getD "")) := by
  unfold convertPrepPart000
  rcases hs : jsTruthy o.source with _ | _ <;>
    simp only [hs, Bool.not_false, Bool.not_true, Bool.false_eq_true, if_false, if_true]
  · intro d hm; simp [dirsOfPrep] at hm
  · rcases hd : jsTruthy o.destination with _ | _ <;>
      simp only [hd, Bool.not_false, Bool.not_true, Bool.false_eq_true, if_false, if_true]
    · intro d hm; simp [dirsOfPrep] at hm
    · rcases hc : cssHtmlOf env o with _ | css <;> simp only [hc]
      · intro d hm; simp [dirsOfPrep] at hm
      · exact headerStagePart000_dirs (fun x hx => absurd hx (List.not_mem_nil x))

theorem convertRunWith_dirs {mkOpts : RtOptions → PuppetOptions} {env : Env}
    {prep : Except PrepErr Prep} {aDir : String}
    (hprep : ∀ d ∈ dirsOfPrep prep, d = aDir) :
    ∀ d ∈ (convertRunWith mkOpts env prep).assetDirs, d = aDir := by
  cases prep with
  | error e => simpa [convertRunWith, dirsOfPrep] using hprep
  | ok p => simpa [convertRunWith, dirsOfPrep] using hprep

/-! ## Resolver preservation lemmas (tree level) -/

mutual
theorem qualifyNode_noImg (ctx : ResolveCtx) :
    (n : HNode) → hasImgN n = false → qualifyNode ctx n = n
  | .text _, _ => rfl
  | .elem tag attrs children, h => by
    have h2 : (if tag = "img" then true else hasImgF children) = false := h
    by_cases ht : tag = "img"
    · rw [if_pos ht] at h2; cases h2
    · rw [if_neg ht] at h2
      unfold qualifyNode
      rw [if_neg ht, qualifyForest_noImg ctx children h2]

theorem qualifyForest_noImg (ctx : ResolveCtx) :
    (f : HForest) → hasImgF f = false → qualifyForest ctx f = f
  | .nil, _ => rfl
  | .cons n rest, h => by
    have h2 : (hasImgN n || hasImgF rest) = false := h
    rcases hn : hasImgN n with _ | _
    · rcases hf : hasImgF rest with _ | _
      · unfold qualifyForest
        rw [qualifyNode_noImg ctx n hn, qualifyForest_noImg ctx rest hf]
      · rw [hn, hf] at h2; cases h2
    · rw [hn] at h2; simp at h2
end

theorem rewriteSrcAttr_erase (f : String → String) (attrs : List (String × String)) :
    rewriteSrcAttr (fun _ => "") (rewriteSrcAttr f attrs) =
      rewriteSrcAttr (fun _ => "") attrs := by
  induction attrs with
  | nil => rfl
  | cons kv rest ih =>
    simp only [rewriteSrcAttr, List.map_cons] at ih ⊢
    by_cases hk : kv.1 = "src" <;> simp [hk, ih]

mutual
theorem eraseSrcN_qualify (ctx : ResolveCtx) :
    (n : HNode) → eraseSrcN (qualifyNode ctx n) = eraseSrcN n
  | .text _ => rfl
  | .elem tag attrs children => by
    by_cases ht : tag = "img"
    · simp only [qualifyNode, eraseSrcN, ht, if_true,
        eraseSrcF_qualify ctx children, rewriteSrcAttr_erase]
    · simp only [qualifyNode, eraseSrcN, ht, if_false,
        eraseSrcF_qualify ctx children]

theorem eraseSrcF_qualify (ctx : ResolveCtx) :
    (f : HForest) → eraseSrcF (qualifyForest ctx f) = eraseSrcF f
  | .nil => rfl
  | .cons n rest => by
    simp only [qualifyForest, eraseSrcF, eraseSrcN_qualify ctx n,
      eraseSrcF_qualify ctx rest]
end

/-! ## Claim theorems -/

/-- C4: the Asset Path Resolver is the identity on fragments with no `img`
element, and in general it preserves everything other than `img` `src`
attribute values (erasing those values on both sides yields equal trees: no
reordering, stripping, or addition of elements, text, or other attributes). -/
theorem c4_resolver_identity_and_preservation :
    (∀ ctx f, hasImgF f = false → qualifyForest ctx f = f) ∧
    (∀ ctx f, eraseSrcF (qualifyForest ctx f) = eraseSrcF f) :=
  ⟨fun ctx f h => qualifyForest_noImg ctx f h,
   fun ctx f => eraseSrcF_qualify ctx f⟩

/-- Witness for C4 at a concrete fragment with no `img` element. -/
theorem c4_resolver_identity_witness :
    hasImgF (HForest.cons (HNode.elem "p" [("class", "x")]
      (HForest.cons (HNode.text "hello") HForest.nil)) HForest.nil) = false ∧
    qualifyForest ⟨"/work", "/docs"⟩
      (HForest.cons (HNode.elem "p" [("class", "x")]
        (HForest.cons (HNode.text "hello") HForest.nil)) HForest.nil) =
      HForest.cons (HNode.elem "p" [("class", "x")]
        (HForest.cons (HNode.text "hello") HForest.nil)) HForest.nil :=
  ⟨by decide,
   c4_resolver_identity_and_preservation.1 ⟨"/work", "/docs"⟩ _ (by decide)⟩

/-- C8: the emoji-shortcode extension is applied iff `noEmoji` is unset
(`convert` passes `!options.noEmoji` as `convertEmojis`); with `noEmoji` set a
literal `:smile:` token survives to the output, with it unset `:smile:` is
substituted away while the timestamp-like `00:00:00` is untouched either
way. -/
theorem c8_emoji_extension_iff :
    (∀ md noEmoji, parseMarkdownToHtml md (!noEmoji) =
      showdownBase (if noEmoji then md else emojiReplace md)) ∧
    strHasSub ":smile:" (parseMarkdownToHtml "Hello :smile: at 00:00:00" (!true)) = true ∧
    strHasSub "00:00:00" (parseMarkdownToHtml "Hello :smile: at 00:00:00" (!true)) = true ∧
    strHasSub ":smile:" (parseMarkdownToHtml "Hello :smile: at 00:00:00" (!false)) = false ∧
    strHasSub "00:00:00" (parseMarkdownToHtml "Hello :smile: at 00:00:00" (!false)) = true := by
  refine ⟨?_, by decide, by decide, by decide, by decide⟩
  intro md noEmoji
  cases noEmoji <;> rfl

/-- C3 counterexample: `ftp://host/redirect?to=http://x` parses with scheme
`ftp:` (neither `http` nor `https`), yet the resolver leaves it unchanged
instead of path-resolving it, because the check is a substring match. -/
theorem c3_scheme_check_counterexample :
    urlParseProtocol "ftp://host/redirect?to=http://x" = some "ftp:" ∧
    (decide ("ftp:" = "http:")) = false ∧
    (decide ("ftp:" = "https:")) = false ∧
    processSrc ⟨"/work", "/docs"⟩ "ftp://host/redirect?to=http://x" =
      "ftp://host/redirect?to=http://x" ∧
    (decide (processSrc ⟨"/work", "/docs"⟩ "ftp://host/redirect?to=http://x" =
      fileUrl "/work" (posixResolve2 "/work" "/docs" "ftp://host/redirect?to=http://x")))
      = false := by
  refine ⟨by decide, by decide, by decide, by decide, by decide⟩

/-- C3 (amended): a src whose parsed URI has some scheme and which contains
`http:` or `https:` anywhere as a substring is returned unchanged; any other
src (no parseable scheme, or no such substring) is resolved against the
AssetContext base directory and rewritten as a local-file URI; in particular
`./a.png` with base `/docs` becomes `file:///docs/a.png` and an `https` URL
is byte-identical. -/
theorem c3_asset_resolution_amended :
    (∀ ctx src, (urlParseProtocol src).isSome = true →
      (strHasSub "http:" src || strHasSub "https:" src) = true →
      processSrc ctx src = src) ∧
    (∀ ctx src, (urlParseProtocol src).isSome = false ∨
        (strHasSub "http:" src || strHasSub "https:" src) = false →
      processSrc ctx src = fileUrl ctx.cwd (posixResolve2 ctx.cwd ctx.assetDir src)) ∧
    processSrc ⟨"/work", "/docs"⟩ "./a.png" = "file:///docs/a.png" ∧
    processSrc ⟨"/work", "/docs"⟩ "https://example.com/a.png" =
      "https://example.com/a.png" := by
  refine ⟨?_, ?_, by decide, by decide⟩
  · intro ctx src hsome hsub
    have hap : hasAcceptableProtocol src = true := by
      unfold hasAcceptableProtocol
      rcases hp : urlParseProtocol src with _ | pr
      · rw [hp] at hsome; cases hsome
      · exact hsub
    unfold processSrc
    rw [if_pos hap]
  · intro ctx src hdis
    have hap : hasAcceptableProtocol src = false := by
      unfold hasAcceptableProtocol
      rcases hp : urlParseProtocol src with _ | pr
      · rfl
      · rcases hdis with h1 | h2
        · rw [hp] at h1; cases h1
        · exact h2
    unfold processSrc
    rw [if_neg (by simp [hap])]

/-- Witness for C3 (amended) at concrete inputs. -/
theorem c3_asset_resolution_witness :
    processSrc ⟨"/work", "/docs"⟩ "https://example.com/a.png" =
      "https://example.com/a.png" ∧
    processSrc ⟨"/work", "/docs"⟩ "./a.png" =
      fileUrl "/work" (posixResolve2 "/work" "/docs" "./a.png") :=
  ⟨c3_asset_resolution_amended.1 ⟨"/work", "/docs"⟩ "https://example.com/a.png"
      (by decide) (by decide),
   c3_asset_resolution_amended.2.1 ⟨"/work", "/docs"⟩ "./a.png" (Or.inl (by decide))⟩

/-- C10: the already-qualified check of the resolver is a protocol-presence
test plus a substring match of `http:`/`https:` over the whole src (not a
scheme comparison): a src with any parseable scheme containing `http:`
anywhere is left unchanged (e.g. `ftp://host/redirect?to=http://x`), and a
src with no parseable scheme is always path-resolved. -/
theorem c10_substring_match_check :
    (∀ src, hasAcceptableProtocol src =
      ((urlParseProtocol src).isSome &&
        (strHasSub "http:" src || strHasSub "https:" src))) ∧
    processSrc ⟨"/cwd", "/base"⟩ "ftp://host/redirect?to=http://x" =
      "ftp://host/redirect?to=http://x" ∧
    (∀ ctx src, urlParseProtocol src = none →
      processSrc ctx src = fileUrl ctx.cwd (posixResolve2 ctx.cwd ctx.assetDir src)) := by
  refine ⟨?_, by decide, ?_⟩
  · intro src
    unfold hasAcceptableProtocol
    rcases hp : urlParseProtocol src with _ | pr <;> simp
  · intro ctx src hnone
    have hap : hasAcceptableProtocol src = false := by
      unfold hasAcceptableProtocol
      rw [hnone]
    unfold processSrc
    rw [if_neg (by simp [hap])]

/-- Witness for C10 at a concrete schemeless src. -/
theorem c10_substring_match_witness :
    urlParseProtocol "images/pic.png" = none ∧
    processSrc ⟨"/cwd", "/base"⟩ "images/pic.png" =
      fileUrl "/cwd" (posixResolve2 "/cwd" "/base" "images/pic.png") :=
  ⟨by decide, c10_substring_match_check.2.2 ⟨"/cwd", "/base"⟩ "images/pic.png" (by decide)⟩

/-! ## Concrete environments for counterexamples and witnesses -/

/-- Whether a run result is a rejection. -/
def isErrRes : Except String String → Bool
  | Except.error _ => true
  | Except.ok _ => false

def envC2 : Env :=
  { cwd := "/work", installDir := "/app/mdpdf"
    fsRead := fun p =>
      if p = "/app/mdpdf/assets/highlight/styles/github.css" then some "HL"
      else if p = "/app/mdpdf/layout.hbs" then some "<html>\x7b\x7bbody\x7d\x7d</html>"
      else if p = "/app/mdpdf/layouts/doc-body.hbs" then some "<html>\x7b\x7bbody\x7d\x7d</html>"
      else if p = "doc.md" then some "# Title"
      else none
    fsWriteOk := fun _ => true
    launchOk := true, newPageOk := true, gotoOk := false
    pdfOk := true, closeOk := true, unlinkOk := true
    qualifyStr := fun _ s => s }

def optsC2 : ConvOptions :=
  { source := some "doc.md", destination := some "/out/doc.pdf"
    header := none, footer := none, styles := none
    ghStyle := false, defaultStyle := false, noEmoji := false, debug := none
    pdf := { format := "A4"
             border := { top := "20mm", right := "20mm", bottom := "20mm", left := "20mm" } } }

/-- C2 (code bug): with valid options, when navigation (`page.goto`) fails
after a successful engine launch, both variants reject without ever calling
`browser.close()` and without deleting the temp HTML file — the chain has no
rejection handler, so the engine process is leaked and the temp file remains
on the failure path. -/
theorem c2_no_cleanup_on_failure :
    (convertRunIndex envC2 optsC2).launched = true ∧
    (convertRunIndex envC2 optsC2).closed = false ∧
    (convertRunIndex envC2 optsC2).tempDeleted = false ∧
    (convertRunIndex envC2 optsC2).result = Except.error "goto failed" ∧
    (convertRunPart000 envC2 optsC2).launched = true ∧
    (convertRunPart000 envC2 optsC2).closed = false ∧
    (convertRunPart000 envC2 optsC2).tempDeleted = false ∧
    (convertRunPart000 envC2 optsC2).result = Except.error "goto failed" :=
  ⟨rfl, rfl, rfl, rfl, rfl, rfl, rfl, rfl⟩

theorem convertPrep_checks (env : Env) (o : ConvOptions)
    (hmiss : jsTruthy o.source = false ∨ jsTruthy o.destination = false) :
    ∃ m, convertPrepIndex env o = Except.error ⟨m, [], []⟩ ∧
      convertPrepPart000 env o = Except.error ⟨m, [], []⟩ := by
  rcases hs : jsTruthy o.source with _ | _
  · refine ⟨"Source path must be provided", ?_, ?_⟩
    · unfold convertPrepIndex; rw [hs]; rfl
    · unfold convertPrepPart000; rw [hs]; rfl
  · have hd : jsTruthy o.destination = false := by
      rcases hmiss with h1 | h2
      · rw [hs] at h1; cases h1
      · exact h2
    refine ⟨"Destination path must be provided", ?_, ?_⟩
    · unfold convertPrepIndex; rw [hs, hd]; rfl
    · unfold convertPrepPart000; rw [hs, hd]; rfl

/-- C5: a request missing the source path or the destination path fails
synchronously in both variants, before any I/O: the result is a rejection and
the event trace is empty (no file is read, written, or deleted, and no engine
step runs). -/
theorem c5_missing_required_fails_before_io :
    ∀ (env : Env) (o : ConvOptions),
      jsTruthy o.source = false ∨ jsTruthy o.destination = false →
      isErrRes (convertRunIndex env o).result = true ∧
      (convertRunIndex env o).events = [] ∧
      isErrRes (convertRunPart000 env o).result = true ∧
      (convertRunPart000 env o).events = [] := by
  intro env o hmiss
  obtain ⟨m, h1, h2⟩ := convertPrep_checks env o hmiss
  refine ⟨?_, ?_, ?_, ?_⟩ <;>
    simp [convertRunIndex, convertRunPart000, convertRunWith, h1, h2, isErrRes]

def envC5 : Env :=
  { cwd := "/work", installDir := "/app/mdpdf"
    fsRead := fun _ => none
    fsWriteOk := fun _ => false
    launchOk := false, newPageOk := false, gotoOk := false
    pdfOk := false, closeOk := false, unlinkOk := false
    qualifyStr := fun _ s => s }

def optsC5 : ConvOptions :=
  { source := none, destination := some "/out/doc.pdf"
    header := none, footer := none, styles := none
    ghStyle := true, defaultStyle := true, noEmoji := false, debug := none
    pdf := { format := "A4"
             border := { top := "1", right := "1", bottom := "1", left := "1" } } }

/-- Witness for C5: a request with the source omitted. -/
theorem c5_missing_required_witness :
    jsTruthy optsC5.source = false ∧
    isErrRes (convertRunIndex envC5 optsC5).result = true ∧
    (convertRunIndex envC5 optsC5).events = [] :=
  ⟨rfl,
   (c5_missing_required_fails_before_io envC5 optsC5 (Or.inl rfl)).1,
   (c5_missing_required_fails_before_io envC5 optsC5 (Or.inl rfl)).2.1⟩

/-- C6: the composed style HTML is the concatenation, in this fixed order, of
per-file style-wrapped blocks: the GitHub stylesheet iff `ghStyle`, the
syntax-highlighting stylesheet always, the default stylesheet iff
`defaultStyle`, and the user stylesheet iff `styles` is given (always last);
each file's text is wrapped verbatim. -/
theorem c6_style_composition_order :
    ∀ (env : Env) (o : ConvOptions) (g hl dflt u : String),
      env.fsRead (ghCssPath env.installDir) = some g →
      env.fsRead (highlightCssPath env.installDir) = some hl →
      env.fsRead (defaultCssPath env.installDir) = some dflt →
      (jsTruthy o.styles = true → env.fsRead (o.styles.getD "") = some u) →
      cssHtmlOf env o = some
        ((if o.ghStyle then "<style>" ++ g ++ "</style>" else "") ++
          ("<style>" ++ hl ++ "</style>") ++
          (if o.defaultStyle then "<style>" ++ dflt ++ "</style>" else "") ++
          (if jsTruthy o.styles then "<style>" ++ u ++ "</style>" else "")) := by
  intro env o g hl dflt u hg hh hd hu
  rcases hst : jsTruthy o.styles with _ | _
  · rcases hgs : o.ghStyle with _ | _ <;>
      rcases hds : o.defaultStyle with _ | _ <;>
        simp only [cssHtmlOf, cssStyleSheets, getCssAsHtmlT, hgs, hds, hst,
          Bool.false_eq_true, if_false, if_true, List.nil_append, List.append_nil,
          List.cons_append, List.singleton_append, List.foldl_cons, List.foldl_nil,
          hg, hh, hd, String.empty_append, String.append_empty,
          String.append_assoc, Option.some.injEq]
  · have hu2 : env.fsRead (o.styles.getD "") = some u := hu hst
    rcases hgs : o.ghStyle with _ | _ <;>
      rcases hds : o.defaultStyle with _ | _ <;>
        simp only [cssHtmlOf, cssStyleSheets, getCssAsHtmlT, hgs, hds, hst,
          Bool.false_eq_true, if_false, if_true, List.nil_append, List.append_nil,
          List.cons_append, List.singleton_append, List.foldl_cons, List.foldl_nil,
          hg, hh, hd, hu2, String.empty_append, String.append_empty,
          String.append_assoc, Option.some.injEq]

def envC6 : Env :=
  { cwd := "/work", installDir := "/app/mdpdf"
    fsRead := fun p =>
      if p = "/app/mdpdf/assets/github-markdown-css.css" then some "G"
      else if p = "/app/mdpdf/assets/highlight/styles/github.css" then some "H"
      else if p = "/app/mdpdf/assets/default.css" then some "D"
      else if p = "/styles/user.css" then some "U"
      else none
    fsWriteOk := fun _ => true
    launchOk := true, newPageOk := true, gotoOk := true
    pdfOk := true, closeOk := true, unlinkOk := true
    qualifyStr := fun _ s => s }

def optsC6 : ConvOptions :=
  { source := some "doc.md", destination := some "/out/doc.pdf"
    header := none, footer := none, styles := some "/styles/user.css"
    ghStyle := true, defaultStyle := true, noEmoji := false, debug := none
    pdf := { format := "A4"
             border := { top := "1", right := "1", bottom := "1", left := "1" } } }

/-- Witness for C6: all four stylesheets selected, composed in order. -/
theorem c6_style_composition_witness :
    cssHtmlOf envC6 optsC6 = some
      ((if optsC6.ghStyle then "<style>" ++ "G" ++ "</style>" else "") ++
        ("<style>" ++ "H" ++ "</style>") ++
        (if optsC6.defaultStyle then "<style>" ++ "D" ++ "</style>" else "") ++
        (if jsTruthy optsC6.styles then "<style>" ++ "U" ++ "</style>" else "")) :=
  c6_style_composition_order envC6 optsC6 "G" "H" "D" "U" rfl rfl rfl (fun _ => rfl)

/-- C7: the asset base directory is derived exactly once as the directory of
the resolved source path, and every `qualifyImgSources` call of a run — for
the header fragment, the footer fragment, and the body — receives that single
directory, in both variants (never the header or footer file's own
location). -/
theorem c7_single_asset_directory :
    ∀ (env : Env) (o : ConvOptions) (d : String),
      (d ∈ (convertRunIndex env o).assetDirs →
        d = posixDirname (posixResolve1 env.cwd (o.source.getD ""))) ∧
      (d ∈ (convertRunPart000 env o).assetDirs →
        d = posixDirname (posixResolve1 env.cwd (o.source.getD ""))) := by
  intro env o d
  constructor
  · intro hm
    exact convertRunWith_dirs (convertPrepIndex_dirs env o) d hm
  · intro hm
    exact convertRunWith_dirs (convertPrepPart000_dirs env o) d hm

def envC7 : Env :=
  { cwd := "/work", installDir := "/app/mdpdf"
    fsRead := fun p =>
      if p = "/app/mdpdf/assets/highlight/styles/github.css" then some "HL"
      else if p = "/app/mdpdf/layout.hbs" then some "L"
      else if p = "/sub/h.html" then some "<b>H</b>"
      else if p = "doc.md" then some "# Title"
      else none
    fsWriteOk := fun _ => true
    launchOk := true, newPageOk := true, gotoOk := true
    pdfOk := true, closeOk := true, unlinkOk := true
    qualifyStr := fun _ s => s }

def optsC7 : ConvOptions :=
  { source := some "doc.md", destination := some "/out/doc.pdf"
    header := some "/sub/h.html", footer := none, styles := none
    ghStyle := false, defaultStyle := false, noEmoji := false, debug := none
    pdf := { format := "A4"
             border := { top := "1", right := "1", bottom := "1", left := "1" } } }

/-- Witness for C7: a run whose header lives in `/sub` still qualifies
against the source's directory `/work`, for both recorded calls. -/
theorem c7_single_asset_directory_witness :
    (convertRunIndex envC7 optsC7).assetDirs = ["/work", "/work"] ∧
    "/work" = posixDirname (posixResolve1 envC7.cwd (optsC7.source.getD "")) :=
  ⟨rfl, (c7_single_asset_directory envC7 optsC7 "/work").1 (by decide)⟩

/-- C9: for every successful conversion in either variant, the promise
resolves with the destination path, the deterministically named temp HTML
file (colocated with the destination directory) has been deleted, and that
deletion is the final step before resolution. -/
theorem c9_success_resolves_destination :
    ∀ (env : Env) (o : ConvOptions) (d : String),
      ((convertRunIndex env o).result = Except.ok d →
        d = o.destination.getD "" ∧ (convertRunIndex env o).tempDeleted = true ∧
        ∃ pre, (convertRunIndex env o).events =
          pre ++ [Ev.unlink (tempHtmlPathOf (o.destination.getD ""))]) ∧
      ((convertRunPart000 env o).result = Except.ok d →
        d = o.destination.getD "" ∧ (convertRunPart000 env o).tempDeleted = true ∧
        ∃ pre, (convertRunPart000 env o).events =
          pre ++ [Ev.unlink (tempHtmlPathOf (o.destination.getD ""))]) := by
  intro env o d
  constructor
  · intro h
    have h2 : (convertRunWith mkPuppetOptionsIndex env
        (convertPrepIndex env o)).result = Except.ok d := h
    obtain ⟨p, hprep, hd, htmp, hex⟩ := convertRunWith_ok h2
    have hdest := convertPrepIndex_ok hprep
    refine ⟨hd.trans hdest, htmp, ?_⟩
    obtain ⟨pre, hevs⟩ := hex
    exact ⟨pre, by rw [← hdest]; exact hevs⟩
  · intro h
    have h2 : (convertRunWith mkPuppetOptionsPart000 env
        (convertPrepPart000 env o)).result = Except.ok d := h
    obtain ⟨p, hprep, hd, htmp, hex⟩ := convertRunWith_ok h2
    have hdest := (convertPrepPart000_ok hprep).1
    refine ⟨hd.trans hdest, htmp, ?_⟩
    obtain ⟨pre, hevs⟩ := hex
    exact ⟨pre, by rw [← hdest]; exact hevs⟩

def envC9 : Env :=
  { cwd := "/work", installDir := "/app/mdpdf"
    fsRead := fun p =>
      if p = "/app/mdpdf/assets/highlight/styles/github.css" then some "HL"
      else if p = "/app/mdpdf/layout.hbs" then some "L"
      else if p = "doc.md" then some "# Title"
      else none
    fsWriteOk := fun _ => true
    launchOk := true, newPageOk := true, gotoOk := true
    pdfOk := true, closeOk := true, unlinkOk := true
    qualifyStr := fun _ s => s }

def optsC9 : ConvOptions :=
  { source := some "doc.md", destination := some "/out/doc.pdf"
    header := none, footer := none, styles := none
    ghStyle := false, defaultStyle := false, noEmoji := false, debug := none
    pdf := { format := "A4"
             border := { top := "1", right := "1", bottom := "1", left := "1" } } }

/-- Witness for C9: a fully successful run. -/
theorem c9_success_resolves_destination_witness :
    "/out/doc.pdf" = optsC9.destination.getD "" ∧
    (convertRunIndex envC9 optsC9).tempDeleted = true ∧
    ∃ pre, (convertRunIndex envC9 optsC9).events =
      pre ++ [Ev.unlink (tempHtmlPathOf (optsC9.destination.getD ""))] :=
  (c9_success_resolves_destination envC9 optsC9 "/out/doc.pdf").1 rfl

def envC1 : Env :=
  { cwd := "/work", installDir := "/app/mdpdf"
    fsRead := fun p =>
      if p = "/app/mdpdf/assets/highlight/styles/github.css" then some "HL"
      else if p = "/app/mdpdf/layout.hbs" then some "L"
      else if p = "/work/h.html" then some "<b>H</b>"
      else if p = "doc.md" then some "# Title"
      else none
    fsWriteOk := fun _ => true
    launchOk := true, newPageOk := true, gotoOk := true
    pdfOk := true, closeOk := true, unlinkOk := true
    qualifyStr := fun _ s => s }

def optsC1 : ConvOptions :=
  { source := some "doc.md", destination := some "/out/doc.pdf"
    header := some "/work/h.html", footer := none, styles := none
    ghStyle := false, defaultStyle := false, noEmoji := false, debug := none
    pdf := { format := "A4"
             border := { top := "1", right := "1", bottom := "1", left := "1" } } }

/-- C1 counterexample: in the `index.js` variant a header is supplied, its
file is read and a qualified header fragment is produced, yet the render
parameters request `displayHeaderFooter = false` and supply no per-page
header template — display is not requested although a header document was
produced from the request's header option. -/
theorem c1_display_header_footer_counterexample :
    jsTruthy optsC1.header = true ∧
    (convertRunIndex envC1 optsC1).headerDoc = some "<b>H</b>" ∧
    (convertRunIndex envC1 optsC1).pdfOpts.map PuppetOptions.displayHeaderFooter =
      some false ∧
    (convertRunIndex envC1 optsC1).pdfOpts.map PuppetOptions.headerTemplate =
      some none :=
  ⟨rfl, rfl, rfl, rfl⟩

/-- C1 (corrected): in the `part_000` variant the render parameters request
`displayHeaderFooter` exactly when a truthy header or footer document was
produced (the produced documents overwrite `options.header`/`options.footer`),
the per-page header chrome contains the header fragment's qualified content
and the footer chrome is exactly the qualified footer content; in the
`index.js` variant `displayHeaderFooter` is the literal `false` and no
header/footer templates are supplied, regardless of the header/footer
options. -/
theorem c1_display_header_footer_amended :
    (∀ (env : Env) (o : ConvOptions) (po : PuppetOptions),
      (convertRunIndex env o).pdfOpts = some po →
      po.displayHeaderFooter = false ∧ po.headerTemplate = none ∧
        po.footerTemplate = none) ∧
    (∀ (env : Env) (o : ConvOptions) (po : PuppetOptions),
      (convertRunPart000 env o).pdfOpts = some po →
      po.displayHeaderFooter =
        (jsTruthy (convertRunPart000 env o).headerDoc ||
          jsTruthy (convertRunPart000 env o).footerDoc)) ∧
    (∀ (env : Env) (o : ConvOptions) (po : PuppetOptions),
      jsTruthy o.header = false → jsTruthy o.footer = false →
      (convertRunPart000 env o).pdfOpts = some po →
      po.displayHeaderFooter = false ∧ po.headerTemplate = none ∧
        po.footerTemplate = none) ∧
    (∀ (env : Env) (o : ConvOptions) (po : PuppetOptions) (hLayout hContent : String),
      jsTruthy o.header = true →
      env.fsRead (headerLayoutPath env.installDir) = some hLayout →
      env.fsRead (o.header.getD "") = some hContent →
      strHasSub (hbsPlaceholder "content") hLayout = true →
      env.qualifyStr (posixDirname (posixResolve1 env.cwd (o.source.getD ""))) hContent
        ≠ "" →
      (convertRunPart000 env o).pdfOpts = some po →
      po.displayHeaderFooter = true ∧
      strHasSub
        (env.qualifyStr (posixDirname (posixResolve1 env.cwd (o.source.getD ""))) hContent)
        (po.headerTemplate.getD "") = true) ∧
    (∀ (env : Env) (o : ConvOptions) (po : PuppetOptions) (fContent : String),
      jsTruthy o.footer = true →
      env.fsRead (o.footer.getD "") = some fContent →
      env.qualifyStr (posixDirname (posixResolve1 env.cwd (o.source.getD ""))) fContent
        ≠ "" →
      (convertRunPart000 env o).pdfOpts = some po →
      po.displayHeaderFooter = true ∧
      po.footerTemplate = some
        (env.qualifyStr (posixDirname (posixResolve1 env.cwd (o.source.getD "")))
          fContent)) := by
  refine ⟨?_, ?_, ?_, ?_, ?_⟩
  · intro env o po h
    obtain ⟨p, _, hpo, _, _⟩ := convertRunWith_pdfOpts h
    subst hpo
    exact ⟨rfl, rfl, rfl⟩
  · intro env o po h
    obtain ⟨p, hprep, hpo, hhd, hfd⟩ := convertRunWith_pdfOpts h
    obtain ⟨_, h2, h3, _⟩ := convertPrepPart000_ok hprep
    subst hpo
    show (jsTruthy p.rt.header || jsTruthy p.rt.footer) = _
    rw [h2, h3,
      show (convertRunPart000 env o).headerDoc = p.headerDoc from hhd,
      show (convertRunPart000 env o).footerDoc = p.footerDoc from hfd]
  · intro env o po hh hf h
    obtain ⟨p, hprep, hpo, _, _⟩ := convertRunWith_pdfOpts h
    obtain ⟨_, _, _, h4, _, h6, _⟩ := convertPrepPart000_ok hprep
    have hH := h4 hh
    have hF := h6 hf
    subst hpo
    refine ⟨?_, ?_, ?_⟩
    · show (jsTruthy p.rt.header || jsTruthy p.rt.footer) = false
      rw [hH, hF]; rfl
    · show jsOrNull p.rt.header = none
      rw [hH]; rfl
    · show jsOrNull p.rt.footer = none
      rw [hF]; rfl
  · intro env o po hLayout hContent hh hlr hcr hph hq h
    obtain ⟨p, hprep, hpo, _, _⟩ := convertRunWith_pdfOpts h
    obtain ⟨_, _, _, _, h5, _, _⟩ := convertPrepPart000_ok hprep
    have hH := h5 hLayout hContent hh hlr hcr
    have hne : renderHeaderLayout hLayout
        (env.qualifyStr (posixDirname (posixResolve1 env.cwd (o.source.getD "")))
          hContent) ≠ "" :=
      renderHeaderLayout_ne_empty _ _ hph hq
    subst hpo
    constructor
    · show (jsTruthy p.rt.header || jsTruthy p.rt.footer) = true
      rw [hH]
      simp [jsTruthy, hne]
    · show strHasSub _ ((jsOrNull p.rt.header).getD "") = true
      rw [hH]
      have hjs : jsOrNull (some (renderHeaderLayout hLayout
          (env.qualifyStr (posixDirname (posixResolve1 env.cwd (o.source.getD "")))
            hContent))) = some (renderHeaderLayout hLayout
          (env.qualifyStr (posixDirname (posixResolve1 env.cwd (o.source.getD "")))
            hContent)) := by
        simp [jsOrNull, jsTruthy, hne]
      rw [hjs]
      exact renderHeaderLayout_contains hLayout _ hph
  · intro env o po fContent hf hfr hq h
    obtain ⟨p, hprep, hpo, _, _⟩ := convertRunWith_pdfOpts h
    obtain ⟨_, _, _, _, _, _, h7⟩ := convertPrepPart000_ok hprep
    have hF := h7 fContent hf hfr
    subst hpo
    constructor
    · show (jsTruthy p.rt.header || jsTruthy p.rt.footer) = true
      rw [hF]
      simp [jsTruthy, hq]
    · show jsOrNull p.rt.footer = _
      rw [hF]
      simp [jsOrNull, jsTruthy, hq]

def envC1w : Env :=
  { cwd := "/work", installDir := "/app/mdpdf"
    fsRead := fun p =>
      if p = "/app/mdpdf/assets/highlight/styles/github.css" then some "HL"
      else if p = "/app/mdpdf/layouts/doc-body.hbs" then some "<html>\x7b\x7bbody\x7d\x7d</html>"
      else if p = "/app/mdpdf/layouts/header.hbs" then
        some "<header>\x7b\x7bcontent\x7d\x7d</header>"
      else if p = "/work/h.html" then some "<b>H</b>"
      else if p = "doc.md" then some "# Title"
      else none
    fsWriteOk := fun _ => true
    launchOk := true, newPageOk := true, gotoOk := true
    pdfOk := true, closeOk := true, unlinkOk := true
    qualifyStr := fun _ s => s }

def optsC1w : ConvOptions :=
  { source := some "doc.md", destination := some "/out/doc.pdf"
    header := some "/work/h.html", footer := none, styles := none
    ghStyle := false, defaultStyle := false, noEmoji := false, debug := none
    pdf := { format := "A4"
             border := { top := "1", right := "1", bottom := "1", left := "1" } } }

/-- Witness for C1 (corrected): a concrete `part_000` run with a header
supplied requests header/footer display and its per-page chrome contains the
qualified header fragment. -/
theorem c1_display_header_footer_witness :
    ∃ po, (convertRunPart000 envC1w optsC1w).pdfOpts = some po ∧
      po.displayHeaderFooter = true ∧
      strHasSub
        (envC1w.qualifyStr
          (posixDirname (posixResolve1 envC1w.cwd (optsC1w.source.getD ""))) "<b>H</b>")
        (po.headerTemplate.getD "") = true := by
  rcases hpo : (convertRunPart000 envC1w optsC1w).pdfOpts with _ | po
  · exact absurd hpo (by decide)
  · exact ⟨po, rfl,
      c1_display_header_footer_amended.2.2.2.1 envC1w optsC1w po
        "<header>\x7b\x7bcontent\x7d\x7d</header>" "<b>H</b>"
        rfl rfl rfl (by decide) (by decide) hpo⟩
